import Mathlib

/-!
Shallow embedding of the terminal session multiplexer of
`src/src-tauri/src/lib.rs` (functions `spawn_pty`, `write_pty`, `resize_pty`,
`close_pty` and the background reader thread spawned by `spawn_pty`).

Modelling conventions:
  * The registry `PtyState { sessions: Mutex<HashMap<String, PtySession>> }`
    is an association list with HashMap semantics (insert replaces the key,
    remove drops it); the mutex is modelled by a poison flag on the state,
    since each Rust operation holds the lock for its whole critical section.
  * OS-level fallible calls (`openpty`, `spawn_command`, `try_clone_reader`,
    `take_writer`, `write_all`, `flush`, `resize`, `kill`) are oracles
    supplied by an environment record; `map_err(|e| e.to_string())` becomes
    wrapping the oracle's error string in `PtyError.io`.
  * Externally visible actions (registry removal/insertion, kill signals,
    the size handed to `openpty`, bytes handed to the writer, emitted
    `terminal-output` events) are recorded in an event trace, in program
    order.
  * Machine integers: `cols`/`rows` are `u16`; `u16::max` cannot overflow,
    so they are plain `Nat`s. Bytes are `Nat`s below 256 where the OS
    produces them.
-/

/-- Embeds `portable_pty::PtySize` (all four fields are `u16`). -/
structure PtySize where
  rows : Nat
  cols : Nat
  pixel_width : Nat
  pixel_height : Nat
deriving Repr, DecidableEq

/-- Embeds `struct PtySession { master, writer, child }`; the three handles
are opaque, identified by numeric tokens. -/
structure PtySession where
  master : Nat
  writer : Nat
  child : Nat
deriving Repr, DecidableEq

/-- The registry: `HashMap<String, PtySession>` as an association list. -/
abbrev Registry := List (String × PtySession)

/-- `sessions.get(&id)` / `sessions.get_mut(&id)`: first entry with the key. -/
def lookupSess : Registry → String → Option PtySession
  | [], _ => none
  | kv :: rest, id => if kv.1 = id then some kv.2 else lookupSess rest id

/-- `sessions.remove(&id)`: drop the entry keyed `id` (a HashMap holds at
most one, so filtering is the same operation). -/
def removeSess (m : Registry) (id : String) : Registry :=
  m.filter (fun kv => kv.1 ≠ id)

/-- `sessions.insert(id, s)`: replace any existing entry for the key. -/
def insertSess (m : Registry) (id : String) (s : PtySession) : Registry :=
  (id, s) :: removeSess m id

/-- Number of registry entries registered under `id`. -/
def countKey (m : Registry) (id : String) : Nat :=
  (m.filter (fun kv => kv.1 = id)).length

/-- HashMap well-formedness: the keys are pairwise distinct. -/
def RegistryWF (m : Registry) : Prop := (m.map Prod.fst).Nodup

instance (m : Registry) : Decidable (RegistryWF m) := by
  unfold RegistryWF; infer_instance

/-- Embeds `PtyState` together with the condition of its mutex: `poisoned`
is true when a prior panic occurred while the lock was held, in which case
every `lock()` returns `Err` and the code maps it to an error. -/
structure MuxState where
  sessions : Registry
  poisoned : Bool
deriving Repr, DecidableEq

/-- The three distinguishable error sources of the four commands: the two
literal strings produced by the code itself, and `e.to_string()` of an
underlying OS error. -/
inductive PtyError where
  | poisoned
  | missingSession
  | io (msg : String)
deriving Repr, DecidableEq

/-- The string each error renders to, as in the Rust code. -/
def PtyError.message : PtyError → String
  | .poisoned => "terminal state poisoned"
  | .missingSession => "missing terminal session"
  | .io m => m

/-- Externally observable actions, recorded in program order. -/
inductive Event where
  | removeEntry (id : String)
  | killCalled (child : Nat)
  | openptyCall (size : PtySize)
  | insertEntry (id : String)
  | writeBytes (writer : Nat) (bytes : List Nat)
  | flushCalled (writer : Nat)
  | resizeCall (master : Nat) (size : PtySize)
  | emitOutput (id : String) (data : String)
deriving Repr, DecidableEq

/-- Oracle results for the fallible OS calls made by `spawn_pty`.
`openptyRes` yields the `(master, slave)` handle pair; `killOldRes` is the
result of `session.child.kill()` on the replaced session (the code ignores
it); `spawnRes` yields the child handle, `cloneReaderRes` the cloned reader,
`takeWriterRes` the writer handle. -/
structure SpawnEnv where
  openptyRes : PtySize → Except String (Nat × Nat)
  killOldRes : Except String Unit
  spawnRes : Except String Nat
  cloneReaderRes : Except String Nat
  takeWriterRes : Except String Nat

/-- The `PtySize` handed to `openpty`: the code builds
`PtySize { rows: rows.max(1), cols: cols.max(2), pixel_width: 0, pixel_height: 0 }`. -/
def spawnRequestSize (cols rows : Nat) : PtySize :=
  ⟨max rows 1, max cols 2, 0, 0⟩

/-- Embeds `spawn_pty`. Returns the command result, the state after, and
the trace of observable actions. The background reader thread is spawned
between `take_writer` and the second lock; its (asynchronous) emissions are
modelled separately by `readerLoop`. -/
def spawn_pty (env : SpawnEnv) (id : String) (cols rows : Nat) (st : MuxState) :
    Except PtyError Unit × MuxState × List Event :=
  if st.poisoned then (.error .poisoned, st, [])
  else
    let pre : MuxState × List Event :=
      match lookupSess st.sessions id with
      | some s =>
          ({ st with sessions := removeSess st.sessions id },
            [Event.removeEntry id, Event.killCalled s.child])
      | none => (st, [])
    let st1 := pre.1
    let tr1 := pre.2 ++ [Event.openptyCall (spawnRequestSize cols rows)]
    match env.openptyRes (spawnRequestSize cols rows) with
    | .error e => (.error (.io e), st1, tr1)
    | .ok pair =>
      match env.spawnRes with
      | .error e => (.error (.io e), st1, tr1)
      | .ok child =>
        match env.cloneReaderRes with
        | .error e => (.error (.io e), st1, tr1)
        | .ok _reader =>
          match env.takeWriterRes with
          | .error e => (.error (.io e), st1, tr1)
          | .ok writer =>
            if st1.poisoned then (.error .poisoned, st1, tr1)
            else
              (.ok (),
                { st1 with
                    sessions := insertSess st1.sessions id ⟨pair.1, writer, child⟩ },
                tr1 ++ [Event.insertEntry id])

/-- Oracle results for `write_all` and `flush`. -/
structure WriteEnv where
  writeAllRes : Except String Unit
  flushRes : Except String Unit

/-- `data.as_bytes()`: the UTF-8 bytes of the string. -/
def strBytes (s : String) : List Nat :=
  s.toUTF8.toList.map (fun b => b.toNat)

/-- Embeds `write_pty`. -/
def write_pty (env : WriteEnv) (id : String) (data : String) (st : MuxState) :
    Except PtyError Unit × MuxState × List Event :=
  if st.poisoned then (.error .poisoned, st, [])
  else
    match lookupSess st.sessions id with
    | none => (.error .missingSession, st, [])
    | some s =>
      match env.writeAllRes with
      | .error e => (.error (.io e), st, [])
      | .ok _ =>
        match env.flushRes with
        | .error e => (.error (.io e), st, [Event.writeBytes s.writer (strBytes data)])
        | .ok _ =>
            (.ok (), st,
              [Event.writeBytes s.writer (strBytes data), Event.flushCalled s.writer])

/-- Oracle result for `master.resize`. -/
structure ResizeEnv where
  resizeRes : PtySize → Except String Unit

/-- Embeds `resize_pty`: no clamping, the raw `cols`/`rows` are passed. -/
def resize_pty (env : ResizeEnv) (id : String) (cols rows : Nat) (st : MuxState) :
    Except PtyError Unit × MuxState × List Event :=
  if st.poisoned then (.error .poisoned, st, [])
  else
    match lookupSess st.sessions id with
    | none => (.error .missingSession, st, [])
    | some s =>
      match env.resizeRes ⟨rows, cols, 0, 0⟩ with
      | .error e => (.error (.io e), st, [Event.resizeCall s.master ⟨rows, cols, 0, 0⟩])
      | .ok _ => (.ok (), st, [Event.resizeCall s.master ⟨rows, cols, 0, 0⟩])

/-- Oracle result for `session.child.kill()` in `close_pty` (ignored). -/
structure CloseEnv where
  killRes : Except String Unit

/-- Embeds `close_pty`. -/
def close_pty (env : CloseEnv) (id : String) (st : MuxState) :
    Except PtyError Unit × MuxState × List Event :=
  if st.poisoned then (.error .poisoned, st, [])
  else
    match lookupSess st.sessions id with
    | some s =>
        let _killResult := env.killRes
        (.ok (), { st with sessions := removeSess st.sessions id },
          [Event.removeEntry id, Event.killCalled s.child])
    | none => (.ok (), st, [])

/-- `let mut buffer = [0u8; 8192];` -/
def readBufferSize : Nat := 8192

/-- One result of `reader.read(&mut buffer)`: `ok bytes` is `Ok(n)` with
`buffer[..n] = bytes` (so `bytes.length ≤ readBufferSize` and `ok []` is a
zero-length read), `err` is `Err(_)`. -/
inductive ReadResult where
  | ok (bytes : List Nat)
  | err
deriving Repr, DecidableEq

/-- U+FFFD REPLACEMENT CHARACTER. -/
def repChar : Char := Char.ofNat 0xFFFD

/-- Is `b` a UTF-8 continuation byte `0x80..=0xBF`? -/
def contOk (b : Nat) : Bool := 0x80 ≤ b && b ≤ 0xBF

/-- Valid second byte of a three-byte sequence headed by `b1`
(`0xE0 => 0xA0..=0xBF`, `0xED => 0x80..=0x9F`, else a continuation byte). -/
def sndOk3 (b1 b2 : Nat) : Bool :=
  if b1 = 0xE0 then 0xA0 ≤ b2 && b2 ≤ 0xBF
  else if b1 = 0xED then 0x80 ≤ b2 && b2 ≤ 0x9F
  else contOk b2

/-- Valid second byte of a four-byte sequence headed by `b1`
(`0xF0 => 0x90..=0xBF`, `0xF4 => 0x80..=0x8F`, else a continuation byte). -/
def sndOk4 (b1 b2 : Nat) : Bool :=
  if b1 = 0xF0 then 0x90 ≤ b2 && b2 ≤ 0xBF
  else if b1 = 0xF4 then 0x80 ≤ b2 && b2 ≤ 0x8F
  else contOk b2

/-- One step of lossy UTF-8 decoding at lead byte `b1` followed by `rest`:
the decoded character (U+FFFD on an invalid subpart) and the not yet
consumed suffix (Rust error-length convention: an invalid lead byte or an
invalid byte after a valid prefix replaces just that prefix, an incomplete
sequence at end of input yields a single replacement and consumes it all). -/
def utf8Step (b1 : Nat) (rest : List Nat) : Char × List Nat :=
  if b1 ≤ 0x7F then (Char.ofNat b1, rest)
  else if 0xC2 ≤ b1 && b1 ≤ 0xDF then
    match rest with
    | [] => (repChar, [])
    | b2 :: rest2 =>
      if contOk b2 then (Char.ofNat ((b1 - 0xC0) * 64 + (b2 - 0x80)), rest2)
      else (repChar, b2 :: rest2)
  else if 0xE0 ≤ b1 && b1 ≤ 0xEF then
    match rest with
    | [] => (repChar, [])
    | b2 :: rest2 =>
      if sndOk3 b1 b2 then
        match rest2 with
        | [] => (repChar, [])
        | b3 :: rest3 =>
          if contOk b3 then
            (Char.ofNat ((b1 - 0xE0) * 4096 + (b2 - 0x80) * 64 + (b3 - 0x80)), rest3)
          else (repChar, b3 :: rest3)
      else (repChar, b2 :: rest2)
  else if 0xF0 ≤ b1 && b1 ≤ 0xF4 then
    match rest with
    | [] => (repChar, [])
    | b2 :: rest2 =>
      if sndOk4 b1 b2 then
        match rest2 with
        | [] => (repChar, [])
        | b3 :: rest3 =>
          if contOk b3 then
            match rest3 with
            | [] => (repChar, [])
            | b4 :: rest4 =>
              if contOk b4 then
                (Char.ofNat
                    ((b1 - 0xF0) * 262144 + (b2 - 0x80) * 4096 +
                      (b3 - 0x80) * 64 + (b4 - 0x80)),
                  rest4)
              else (repChar, b4 :: rest4)
          else (repChar, b3 :: rest3)
      else (repChar, b2 :: rest2)
  else (repChar, rest)

theorem utf8Step_snd_le (b1 : Nat) (rest : List Nat) :
    (utf8Step b1 rest).2.length ≤ rest.length := by
  unfold utf8Step
  repeat' split
  all_goals simp_all
  all_goals omega

/-- `String::from_utf8_lossy`: decode UTF-8, substituting U+FFFD for each
maximal invalid subpart. -/
def decodeUtf8Lossy : List Nat → List Char
  | [] => []
  | b1 :: rest => (utf8Step b1 rest).1 :: decodeUtf8Lossy (utf8Step b1 rest).2
termination_by bs => bs.length
decreasing_by
  simp only [List.length_cons]
  exact Nat.lt_succ_of_le (utf8Step_snd_le _ _)

/-- `String::from_utf8_lossy(bytes).to_string()`. -/
def utf8Lossy (bs : List Nat) : String := String.mk (decodeUtf8Lossy bs)

/-- The background reader thread of `spawn_pty`, evaluated against the
finite sequence of read results the stream will deliver: `Ok(0)` or `Err`
breaks the loop, `Ok(n)` with `n > 0` emits one `terminal-output` event
carrying the lossily decoded chunk. -/
def readerLoop (id : String) : List ReadResult → List Event
  | [] => []
  | ReadResult.ok [] :: _ => []
  | ReadResult.ok (b :: bs) :: rest =>
      Event.emitOutput id (utf8Lossy (b :: bs)) :: readerLoop id rest
  | ReadResult.err :: _ => []

/-! ### Sample states and environments used by the concrete witnesses -/

def sampleSession : PtySession := ⟨10, 11, 12⟩

def sampleState : MuxState := ⟨[("t1", sampleSession)], false⟩

def emptyState : MuxState := ⟨[], false⟩

def poisonState : MuxState := ⟨[("t1", sampleSession)], true⟩

def okSpawnEnv : SpawnEnv :=
  ⟨fun _ => .ok (20, 21), .ok (), .ok 22, .ok 23, .ok 24⟩

def failSpawnEnv : SpawnEnv :=
  ⟨fun _ => .error "openpty failed", .ok (), .ok 22, .ok 23, .ok 24⟩

def okWriteEnv : WriteEnv := ⟨.ok (), .ok ()⟩

def okResizeEnv : ResizeEnv := ⟨fun _ => .ok ()⟩

def okCloseEnv : CloseEnv := ⟨.ok ()⟩

def failCloseEnv : CloseEnv := ⟨.error "kill failed"⟩

/-! ### Registry lemmas -/

theorem countKey_cons (a : String × PtySession) (rest : Registry) (k : String) :
    countKey (a :: rest) k = (if a.1 = k then 1 else 0) + countKey rest k := by
  unfold countKey
  by_cases h : a.1 = k
  · simp [List.filter_cons, h]
    omega
  · simp [List.filter_cons, h]

theorem removeSess_cons (a : String × PtySession) (rest : Registry) (id : String) :
    removeSess (a :: rest) id =
      if a.1 = id then removeSess rest id else a :: removeSess rest id := by
  unfold removeSess
  by_cases h : a.1 = id <;> simp [List.filter_cons, h]

theorem countKey_removeSess_self (m : Registry) (id : String) :
    countKey (removeSess m id) id = 0 := by
  induction m with
  | nil => rfl
  | cons a rest ih =>
    rw [removeSess_cons]
    by_cases h : a.1 = id
    · rw [if_pos h]; exact ih
    · rw [if_neg h, countKey_cons, if_neg h, ih]

theorem countKey_removeSess_ne (m : Registry) (id k : String) (h : k ≠ id) :
    countKey (removeSess m id) k = countKey m k := by
  induction m with
  | nil => rfl
  | cons a rest ih =>
    rw [removeSess_cons]
    by_cases h1 : a.1 = id
    · have h2 : ¬ a.1 = k := by rw [h1]; intro hh; exact h hh.symm
      rw [if_pos h1, countKey_cons, if_neg h2, ih]
      omega
    · rw [if_neg h1, countKey_cons, countKey_cons, ih]

theorem countKey_insertSess (m : Registry) (id : String) (s : PtySession) (k : String) :
    countKey (insertSess m id s) k = if k = id then 1 else countKey m k := by
  unfold insertSess
  rw [countKey_cons]
  by_cases h : k = id
  · subst h
    rw [if_pos rfl, if_pos rfl, countKey_removeSess_self]
  · rw [if_neg (fun hh => h hh.symm), if_neg h, countKey_removeSess_ne m id k h]
    omega

theorem countKey_eq_zero_of_not_mem (m : Registry) (k : String)
    (h : k ∉ m.map Prod.fst) : countKey m k = 0 := by
  induction m with
  | nil => rfl
  | cons a rest ih =>
    rw [List.map_cons, List.mem_cons] at h
    push_neg at h
    rw [countKey_cons, if_neg (fun hh => h.1 hh.symm), ih h.2]

theorem RegistryWF.countKey_le_one {m : Registry} (h : RegistryWF m) (k : String) :
    countKey m k ≤ 1 := by
  induction m with
  | nil => simp [countKey]
  | cons a rest ih =>
    unfold RegistryWF at h
    rw [List.map_cons, List.nodup_cons] at h
    obtain ⟨hnotin, hnd⟩ := h
    rw [countKey_cons]
    by_cases hk : a.1 = k
    · have hz : countKey rest k = 0 :=
        countKey_eq_zero_of_not_mem rest k (by rw [← hk]; exact hnotin)
      rw [if_pos hk, hz]
    · have := ih hnd
      rw [if_neg hk]
      omega

theorem RegistryWF_removeSess (m : Registry) (id : String) (h : RegistryWF m) :
    RegistryWF (removeSess m id) :=
  List.Nodup.sublist (List.Sublist.map Prod.fst (List.filter_sublist m)) h

theorem RegistryWF_insertSess (m : Registry) (id : String) (s : PtySession)
    (h : RegistryWF m) : RegistryWF (insertSess m id s) := by
  unfold RegistryWF insertSess
  simp only [List.map_cons]
  refine List.nodup_cons.mpr ⟨?_, RegistryWF_removeSess m id h⟩
  intro hmem
  rcases List.mem_map.mp hmem with ⟨kv, hkv, hfst⟩
  have h2 := (List.mem_filter.mp hkv).2
  simp at h2
  exact h2 hfst

theorem lookupSess_removeSess_self (m : Registry) (id : String) :
    lookupSess (removeSess m id) id = none := by
  induction m with
  | nil => rfl
  | cons a rest ih =>
    by_cases h : a.1 = id <;>
      simp [removeSess, List.filter_cons, h, lookupSess] at * <;> exact ih

/-! ### Reader-loop unfolding lemmas -/

theorem readerLoop_nil (id : String) : readerLoop id [] = [] := rfl

theorem readerLoop_cons_zero (id : String) (rest : List ReadResult) :
    readerLoop id (ReadResult.ok [] :: rest) = [] := rfl

theorem readerLoop_cons_err (id : String) (rest : List ReadResult) :
    readerLoop id (ReadResult.err :: rest) = [] := rfl

theorem readerLoop_cons_ok (id : String) (b : Nat) (bs : List Nat)
    (rest : List ReadResult) :
    readerLoop id (ReadResult.ok (b :: bs) :: rest) =
      Event.emitOutput id (utf8Lossy (b :: bs)) :: readerLoop id rest := rfl

theorem readerLoop_only_emits (rid : String) (reads : List ReadResult) :
    ∀ ev ∈ readerLoop rid reads, ∃ d, ev = Event.emitOutput rid d := by
  induction reads with
  | nil => intro ev hev; simp [readerLoop_nil] at hev
  | cons r rest ih =>
    intro ev hev
    rcases r with bs | _
    · rcases bs with _ | ⟨b, bs⟩
      · rw [readerLoop_cons_zero] at hev; simp at hev
      · rw [readerLoop_cons_ok] at hev
        rcases List.mem_cons.mp hev with h | h
        · exact ⟨utf8Lossy (b :: bs), h⟩
        · exact ih ev h
    · rw [readerLoop_cons_err] at hev; simp at hev

/-! ### Claim theorems -/

/-- C1: at most one session is ever registered under an id (the registry
keys stay pairwise distinct across `spawn_pty`), and when `spawn_pty` runs
while a session already exists under `id`, the previous session's registry
entry is removed and its child killed strictly before the new session is
inserted: the trace begins `[removeEntry id, killCalled old.child]` and any
`insertEntry id` occurs only at a later position. -/
theorem spawn_pty_terminate_then_replace
    (env : SpawnEnv) (st : MuxState) (id : String) (cols rows : Nat) (s : PtySession)
    (hwf : RegistryWF st.sessions)
    (hs : lookupSess st.sessions id = some s)
    (hp : st.poisoned = false) :
    RegistryWF (spawn_pty env id cols rows st).2.1.sessions ∧
    countKey (spawn_pty env id cols rows st).2.1.sessions id ≤ 1 ∧
    (spawn_pty env id cols rows st).2.2.take 2 =
      [Event.removeEntry id, Event.killCalled s.child] ∧
    (∀ i, (spawn_pty env id cols rows st).2.2.get? i = some (Event.insertEntry id) →
      2 ≤ i) := by
  unfold spawn_pty
  simp only [hp, hs, Bool.false_eq_true, if_false]
  cases hop : env.openptyRes (spawnRequestSize cols rows) with
  | error e =>
    simp only [hop]
    refine ⟨RegistryWF_removeSess _ _ hwf, ?_, rfl, ?_⟩
    · rw [countKey_removeSess_self]; omega
    · intro i hi
      rcases i with _ | _ | _ | i <;> simp [List.get?] at hi
  | ok pair =>
    cases hsp : env.spawnRes with
    | error e =>
      simp only [hop, hsp]
      refine ⟨RegistryWF_removeSess _ _ hwf, ?_, rfl, ?_⟩
      · rw [countKey_removeSess_self]; omega
      · intro i hi
        rcases i with _ | _ | _ | i <;> simp [List.get?] at hi
    | ok child =>
      cases hcl : env.cloneReaderRes with
      | error e =>
        simp only [hop, hsp, hcl]
        refine ⟨RegistryWF_removeSess _ _ hwf, ?_, rfl, ?_⟩
        · rw [countKey_removeSess_self]; omega
        · intro i hi
          rcases i with _ | _ | _ | i <;> simp [List.get?] at hi
      | ok rdr =>
        cases htw : env.takeWriterRes with
        | error e =>
          simp only [hop, hsp, hcl, htw]
          refine ⟨RegistryWF_removeSess _ _ hwf, ?_, rfl, ?_⟩
          · rw [countKey_removeSess_self]; omega
          · intro i hi
            rcases i with _ | _ | _ | i <;> simp [List.get?] at hi
        | ok wtr =>
          simp only [hop, hsp, hcl, htw, hp, Bool.false_eq_true, if_false]
          refine ⟨RegistryWF_insertSess _ _ _ (RegistryWF_removeSess _ _ hwf), ?_, rfl, ?_⟩
          · rw [countKey_insertSess, if_pos rfl]
          · intro i hi
            rcases i with _ | _ | _ | _ | i <;> simp [List.get?] at hi
            omega

theorem spawn_pty_terminate_then_replace_witness :
    RegistryWF sampleState.sessions ∧
    lookupSess sampleState.sessions "t1" = some sampleSession ∧
    sampleState.poisoned = false ∧
    (RegistryWF (spawn_pty okSpawnEnv "t1" 80 24 sampleState).2.1.sessions ∧
     countKey (spawn_pty okSpawnEnv "t1" 80 24 sampleState).2.1.sessions "t1" ≤ 1 ∧
     (spawn_pty okSpawnEnv "t1" 80 24 sampleState).2.2.take 2 =
       [Event.removeEntry "t1", Event.killCalled sampleSession.child] ∧
     (∀ i, (spawn_pty okSpawnEnv "t1" 80 24 sampleState).2.2.get? i =
         some (Event.insertEntry "t1") → 2 ≤ i)) :=
  ⟨by decide, by decide, rfl,
    spawn_pty_terminate_then_replace okSpawnEnv sampleState "t1" 80 24 sampleSession
      (by decide) (by decide) rfl⟩

/-- C2: against an id with no registered session, `write_pty` and
`resize_pty` both fail with the not-found error and leave the state (and
trace) unchanged. -/
theorem write_resize_not_found
    (wenv : WriteEnv) (renv : ResizeEnv) (st : MuxState) (id : String)
    (data : String) (cols rows : Nat)
    (habs : lookupSess st.sessions id = none) (hp : st.poisoned = false) :
    write_pty wenv id data st = (.error .missingSession, st, []) ∧
    resize_pty renv id cols rows st = (.error .missingSession, st, []) := by
  unfold write_pty resize_pty
  simp only [hp, habs, Bool.false_eq_true, if_false]
  exact ⟨by trivial, by trivial⟩

theorem write_resize_not_found_witness :
    lookupSess emptyState.sessions "t9" = none ∧
    emptyState.poisoned = false ∧
    (write_pty okWriteEnv "t9" "hi" emptyState =
        (.error .missingSession, emptyState, []) ∧
     resize_pty okResizeEnv "t9" 80 24 emptyState =
        (.error .missingSession, emptyState, [])) :=
  ⟨rfl, rfl,
    write_resize_not_found okWriteEnv okResizeEnv emptyState "t9" "hi" 80 24 rfl rfl⟩

/-- C3: `close_pty` is idempotent: with a session registered it removes the
entry and calls kill, returning success whatever the kill result (the
environment is arbitrary, including a failing kill); with no session
registered it is a no-op returning success, never a not-found error. -/
theorem close_pty_idempotent (cenv : CloseEnv) (st : MuxState) (id : String)
    (hp : st.poisoned = false) :
    (∀ s, lookupSess st.sessions id = some s →
        close_pty cenv id st =
          (.ok (), { st with sessions := removeSess st.sessions id },
            [Event.removeEntry id, Event.killCalled s.child])) ∧
    (lookupSess st.sessions id = none → close_pty cenv id st = (.ok (), st, [])) := by
  unfold close_pty
  simp only [hp, Bool.false_eq_true, if_false]
  constructor
  · intro s hs; rw [hs]
  · intro hn; rw [hn]

theorem close_pty_idempotent_witness :
    sampleState.poisoned = false ∧
    ((∀ s, lookupSess sampleState.sessions "t1" = some s →
        close_pty failCloseEnv "t1" sampleState =
          (.ok (),
            { sampleState with sessions := removeSess sampleState.sessions "t1" },
            [Event.removeEntry "t1", Event.killCalled s.child])) ∧
     (lookupSess sampleState.sessions "t1" = none →
        close_pty failCloseEnv "t1" sampleState = (.ok (), sampleState, []))) :=
  ⟨rfl, close_pty_idempotent failCloseEnv sampleState "t1" rfl⟩

/-- C4: `spawn_pty` asks `openpty` for exactly the size with
`max(cols, 2)` columns and `max(rows, 1)` rows (and no other size), these
clamped values meet the floors `cols ≥ 2`, `rows ≥ 1`, and
`spawn_pty id 0 0` succeeds whenever the environment accepts all sizes
meeting the floors and the remaining calls succeed — so zero dimensions
never cause the failure. -/
theorem spawn_pty_clamps_size
    (env : SpawnEnv) (st : MuxState) (id : String) (cols rows : Nat)
    (hp : st.poisoned = false) :
    Event.openptyCall ⟨max rows 1, max cols 2, 0, 0⟩ ∈
      (spawn_pty env id cols rows st).2.2 ∧
    (∀ sz, Event.openptyCall sz ∈ (spawn_pty env id cols rows st).2.2 →
        sz = ⟨max rows 1, max cols 2, 0, 0⟩) ∧
    2 ≤ max cols 2 ∧ 1 ≤ max rows 1 ∧
    ((∀ sz : PtySize, 1 ≤ sz.rows → 2 ≤ sz.cols →
        ∃ p, env.openptyRes sz = .ok p) →
      (∃ c, env.spawnRes = .ok c) → (∃ r, env.cloneReaderRes = .ok r) →
      (∃ w, env.takeWriterRes = .ok w) →
      (spawn_pty env id 0 0 st).1 = .ok ()) := by
  refine ⟨?_, ?_, Nat.le_max_right cols 2, Nat.le_max_right rows 1, ?_⟩
  · unfold spawn_pty
    simp only [hp, Bool.false_eq_true, if_false]
    cases hl : lookupSess st.sessions id <;>
    cases hop : env.openptyRes (spawnRequestSize cols rows) <;>
    cases hsp : env.spawnRes <;>
    cases hcl : env.cloneReaderRes <;>
    cases htw : env.takeWriterRes <;>
      simp [hl, hop, hsp, hcl, htw, hp, spawnRequestSize]
  · unfold spawn_pty
    simp only [hp, Bool.false_eq_true, if_false]
    intro sz
    cases hl : lookupSess st.sessions id <;>
    cases hop : env.openptyRes (spawnRequestSize cols rows) <;>
    cases hsp : env.spawnRes <;>
    cases hcl : env.cloneReaderRes <;>
    cases htw : env.takeWriterRes <;>
      (intro hmem
       simp [hl, hop, hsp, hcl, htw, hp, spawnRequestSize] at hmem
       exact hmem)
  · intro hopen hspn hclr htwr
    obtain ⟨p, hp1⟩ := hopen ⟨1, 2, 0, 0⟩ (by norm_num) (by norm_num)
    obtain ⟨c, hc⟩ := hspn
    obtain ⟨r, hr⟩ := hclr
    obtain ⟨w, hw⟩ := htwr
    have hsz : spawnRequestSize 0 0 = ⟨1, 2, 0, 0⟩ := by decide
    unfold spawn_pty
    simp only [hp, Bool.false_eq_true, if_false, hsz]
    cases hl : lookupSess st.sessions id <;>
      simp [hl, hp1, hc, hr, hw, hp]

theorem spawn_pty_clamps_size_witness :
    emptyState.poisoned = false ∧
    (Event.openptyCall ⟨max 0 1, max 0 2, 0, 0⟩ ∈
        (spawn_pty okSpawnEnv "t2" 0 0 emptyState).2.2 ∧
     (∀ sz, Event.openptyCall sz ∈ (spawn_pty okSpawnEnv "t2" 0 0 emptyState).2.2 →
        sz = ⟨max 0 1, max 0 2, 0, 0⟩) ∧
     2 ≤ max 0 2 ∧ 1 ≤ max 0 1 ∧
     ((∀ sz : PtySize, 1 ≤ sz.rows → 2 ≤ sz.cols →
          ∃ p, okSpawnEnv.openptyRes sz = .ok p) →
      (∃ c, okSpawnEnv.spawnRes = .ok c) →
      (∃ r, okSpawnEnv.cloneReaderRes = .ok r) →
      (∃ w, okSpawnEnv.takeWriterRes = .ok w) →
      (spawn_pty okSpawnEnv "t2" 0 0 emptyState).1 = .ok ())) :=
  ⟨rfl, spawn_pty_clamps_size okSpawnEnv emptyState "t2" 0 0 rfl⟩

/-- C5: `spawn_pty` is not atomic with respect to removing the previous
session: when a session existed under `id` and pseudo-terminal allocation
or process spawn fails, the call returns that I/O error and leaves the
registry with the old entry removed and nothing under `id` (the old session
is not restored). -/
theorem spawn_pty_failed_reopen_leaves_absent
    (env : SpawnEnv) (st : MuxState) (id : String) (cols rows : Nat) (s : PtySession)
    (e : String)
    (hs : lookupSess st.sessions id = some s) (hp : st.poisoned = false)
    (hfail : env.openptyRes (spawnRequestSize cols rows) = .error e ∨
      (env.spawnRes = .error e ∧
        ∃ p, env.openptyRes (spawnRequestSize cols rows) = .ok p)) :
    (spawn_pty env id cols rows st).1 = .error (.io e) ∧
    (spawn_pty env id cols rows st).2.1.sessions = removeSess st.sessions id ∧
    lookupSess (spawn_pty env id cols rows st).2.1.sessions id = none := by
  unfold spawn_pty
  simp only [hp, hs, Bool.false_eq_true, if_false]
  rcases hfail with hfail | ⟨hfail, p, hok⟩
  · simp only [hfail]
    exact ⟨by trivial, by trivial, lookupSess_removeSess_self _ _⟩
  · simp only [hok, hfail]
    exact ⟨by trivial, by trivial, lookupSess_removeSess_self _ _⟩

theorem spawn_pty_failed_reopen_leaves_absent_witness :
    lookupSess sampleState.sessions "t1" = some sampleSession ∧
    sampleState.poisoned = false ∧
    (failSpawnEnv.openptyRes (spawnRequestSize 80 24) = .error "openpty failed" ∨
      (failSpawnEnv.spawnRes = .error "openpty failed" ∧
        ∃ p, failSpawnEnv.openptyRes (spawnRequestSize 80 24) = .ok p)) ∧
    ((spawn_pty failSpawnEnv "t1" 80 24 sampleState).1 =
        .error (.io "openpty failed") ∧
     (spawn_pty failSpawnEnv "t1" 80 24 sampleState).2.1.sessions =
        removeSess sampleState.sessions "t1" ∧
     lookupSess (spawn_pty failSpawnEnv "t1" 80 24 sampleState).2.1.sessions "t1" =
        none) :=
  ⟨by decide, rfl, Or.inl rfl,
    spawn_pty_failed_reopen_leaves_absent failSpawnEnv sampleState "t1" 80 24
      sampleSession "openpty failed" (by decide) rfl (Or.inl rfl)⟩

/-- C6: the background reader emits exactly one `{id, data}` output event
per non-empty read, in order, with `data` the chunk decoded with lossy
UTF-8 substitution; at the first zero-length read or read error it stops
and emits nothing further. -/
theorem readerLoop_emits_per_chunk
    (id : String) (chunks : List (List Nat)) (t : ReadResult) (rest : List ReadResult)
    (hne : ∀ c ∈ chunks, c ≠ [])
    (ht : t = ReadResult.ok [] ∨ t = ReadResult.err) :
    readerLoop id (chunks.map ReadResult.ok ++ t :: rest) =
      chunks.map (fun c => Event.emitOutput id (utf8Lossy c)) := by
  induction chunks with
  | nil =>
    rcases ht with h | h <;> subst h
    · exact readerLoop_cons_zero id rest
    · exact readerLoop_cons_err id rest
  | cons c cs ih =>
    rcases hc : c with _ | ⟨b, bs⟩
    · exact absurd hc (hne c (by simp))
    · simp only [List.map_cons, List.cons_append]
      rw [readerLoop_cons_ok, ih (fun x hx => hne x (by simp [hx]))]

theorem readerLoop_emits_per_chunk_witness :
    (∀ c ∈ [[104], [105, 33]], c ≠ ([] : List Nat)) ∧
    (ReadResult.ok [] = ReadResult.ok [] ∨ ReadResult.ok [] = ReadResult.err) ∧
    readerLoop "t1"
        (([[104], [105, 33]].map ReadResult.ok) ++
          ReadResult.ok [] :: [ReadResult.ok [7]]) =
      [[104], [105, 33]].map (fun c => Event.emitOutput "t1" (utf8Lossy c)) :=
  ⟨by decide, Or.inl rfl,
    readerLoop_emits_per_chunk "t1" [[104], [105, 33]] (ReadResult.ok [])
      [ReadResult.ok [7]] (by decide) (Or.inl rfl)⟩

/-- C7: with a session registered under `id`, `write_pty` hands exactly the
UTF-8 bytes of `data` to the session's writer and then flushes it, in that
order, returning success; a failing `write_all` or a failing `flush` is
returned as that error. -/
theorem write_pty_verbatim
    (env : WriteEnv) (st : MuxState) (id : String) (data : String) (s : PtySession)
    (hs : lookupSess st.sessions id = some s) (hp : st.poisoned = false) :
    (env.writeAllRes = .ok () → env.flushRes = .ok () →
      write_pty env id data st =
        (.ok (), st,
          [Event.writeBytes s.writer (strBytes data), Event.flushCalled s.writer])) ∧
    (∀ e, env.writeAllRes = .error e →
      write_pty env id data st = (.error (.io e), st, [])) ∧
    (∀ e, env.writeAllRes = .ok () → env.flushRes = .error e →
      write_pty env id data st =
        (.error (.io e), st, [Event.writeBytes s.writer (strBytes data)])) := by
  unfold write_pty
  simp only [hp, hs, Bool.false_eq_true, if_false]
  refine ⟨?_, ?_, ?_⟩
  · intro h1 h2; rw [h1, h2]
  · intro e h1; rw [h1]
  · intro e h1 h2; rw [h1, h2]

theorem write_pty_verbatim_witness :
    lookupSess sampleState.sessions "t1" = some sampleSession ∧
    sampleState.poisoned = false ∧
    ((okWriteEnv.writeAllRes = .ok () → okWriteEnv.flushRes = .ok () →
      write_pty okWriteEnv "t1" "hi" sampleState =
        (.ok (), sampleState,
          [Event.writeBytes sampleSession.writer (strBytes "hi"),
            Event.flushCalled sampleSession.writer])) ∧
     (∀ e, okWriteEnv.writeAllRes = .error e →
      write_pty okWriteEnv "t1" "hi" sampleState =
        (.error (.io e), sampleState, [])) ∧
     (∀ e, okWriteEnv.writeAllRes = .ok () → okWriteEnv.flushRes = .error e →
      write_pty okWriteEnv "t1" "hi" sampleState =
        (.error (.io e), sampleState,
          [Event.writeBytes sampleSession.writer (strBytes "hi")]))) :=
  ⟨by decide, rfl,
    write_pty_verbatim okWriteEnv sampleState "t1" "hi" sampleSession (by decide) rfl⟩

/-- C8: when the registry lock is poisoned, each of the four operations
returns the internal "terminal state poisoned" error and changes nothing,
instead of panicking. -/
theorem poisoned_lock_errors (st : MuxState) (hp : st.poisoned = true) :
    (∀ senv id cols rows,
        spawn_pty senv id cols rows st = (.error .poisoned, st, [])) ∧
    (∀ wenv id data, write_pty wenv id data st = (.error .poisoned, st, [])) ∧
    (∀ renv id cols rows,
        resize_pty renv id cols rows st = (.error .poisoned, st, [])) ∧
    (∀ cenv id, close_pty cenv id st = (.error .poisoned, st, [])) := by
  refine ⟨?_, ?_, ?_, ?_⟩
  · intro senv id cols rows; unfold spawn_pty; rw [if_pos hp]
  · intro wenv id data; unfold write_pty; rw [if_pos hp]
  · intro renv id cols rows; unfold resize_pty; rw [if_pos hp]
  · intro cenv id; unfold close_pty; rw [if_pos hp]

theorem poisoned_lock_errors_witness :
    poisonState.poisoned = true ∧
    ((∀ senv id cols rows,
        spawn_pty senv id cols rows poisonState =
          (.error .poisoned, poisonState, [])) ∧
     (∀ wenv id data,
        write_pty wenv id data poisonState = (.error .poisoned, poisonState, [])) ∧
     (∀ renv id cols rows,
        resize_pty renv id cols rows poisonState =
          (.error .poisoned, poisonState, [])) ∧
     (∀ cenv id, close_pty cenv id poisonState = (.error .poisoned, poisonState, []))) :=
  ⟨rfl, poisoned_lock_errors poisonState rfl⟩

/-- C9: when every successful read delivers at most `readBufferSize = 8192`
bytes (the `Read` contract for the fixed 8192-byte buffer), every event the
reader emits decodes a chunk of at most 8192 bytes. -/
theorem readerLoop_chunk_bounded
    (id : String) (reads : List ReadResult)
    (hb : ∀ bs, ReadResult.ok bs ∈ reads → bs.length ≤ readBufferSize) :
    ∀ ev ∈ readerLoop id reads, ∃ bs, bs.length ≤ readBufferSize ∧
      ReadResult.ok bs ∈ reads ∧ ev = Event.emitOutput id (utf8Lossy bs) := by
  induction reads with
  | nil => intro ev hev; simp [readerLoop_nil] at hev
  | cons r rest ih =>
    intro ev hev
    rcases r with bs | _
    · rcases bs with _ | ⟨b, bs⟩
      · rw [readerLoop_cons_zero] at hev
        simp at hev
      · rw [readerLoop_cons_ok] at hev
        rcases List.mem_cons.mp hev with h | h
        · exact ⟨b :: bs, hb _ (by simp), by simp, h⟩
        · obtain ⟨bs2, h1, h2, h3⟩ := ih (fun x hx => hb x (by simp [hx])) ev h
          exact ⟨bs2, h1, by simp [h2], h3⟩
    · rw [readerLoop_cons_err] at hev
      simp at hev

theorem readerLoop_chunk_bounded_witness :
    (∀ bs, ReadResult.ok bs ∈ [ReadResult.ok [104, 105], ReadResult.err] →
        bs.length ≤ readBufferSize) ∧
    (∀ ev ∈ readerLoop "t1" [ReadResult.ok [104, 105], ReadResult.err],
        ∃ bs, bs.length ≤ readBufferSize ∧
          ReadResult.ok bs ∈ [ReadResult.ok [104, 105], ReadResult.err] ∧
          ev = Event.emitOutput "t1" (utf8Lossy bs)) :=
  ⟨by intro bs h; simp at h; subst h; decide,
    readerLoop_chunk_bounded "t1" [ReadResult.ok [104, 105], ReadResult.err]
      (by intro bs h; simp at h; subst h; decide)⟩

/-- C10: only `spawn_pty` and `close_pty` mutate the registry: the reader
loop produces output events only (never a registry action), and `write_pty`
and `resize_pty` leave the state untouched, so a registered session stays
registered across them — and neither returns the not-found error for it —
until an explicit close or a replacing open. -/
theorem registry_only_open_close_mutate
    (st : MuxState) (id : String) (s : PtySession)
    (hs : lookupSess st.sessions id = some s) (hp : st.poisoned = false) :
    (∀ rid reads, ∀ ev ∈ readerLoop rid reads, ∃ d, ev = Event.emitOutput rid d) ∧
    (∀ wenv data, (write_pty wenv id data st).2.1 = st ∧
      lookupSess (write_pty wenv id data st).2.1.sessions id = some s ∧
      (write_pty wenv id data st).1 ≠ .error .missingSession) ∧
    (∀ renv cols rows, (resize_pty renv id cols rows st).2.1 = st ∧
      lookupSess (resize_pty renv id cols rows st).2.1.sessions id = some s ∧
      (resize_pty renv id cols rows st).1 ≠ .error .missingSession) := by
  refine ⟨fun rid reads => readerLoop_only_emits rid reads, ?_, ?_⟩
  · intro wenv data
    unfold write_pty
    simp only [hp, hs, Bool.false_eq_true, if_false]
    cases hw : wenv.writeAllRes <;> cases hf : wenv.flushRes <;>
      simp [hw, hf, hs]
  · intro renv cols rows
    unfold resize_pty
    simp only [hp, hs, Bool.false_eq_true, if_false]
    cases hr : renv.resizeRes ⟨rows, cols, 0, 0⟩ <;>
      simp [hr, hs]

theorem registry_only_open_close_mutate_witness :
    lookupSess sampleState.sessions "t1" = some sampleSession ∧
    sampleState.poisoned = false ∧
    ((∀ rid reads, ∀ ev ∈ readerLoop rid reads, ∃ d, ev = Event.emitOutput rid d) ∧
     (∀ wenv data, (write_pty wenv "t1" data sampleState).2.1 = sampleState ∧
       lookupSess (write_pty wenv "t1" data sampleState).2.1.sessions "t1" =
          some sampleSession ∧
       (write_pty wenv "t1" data sampleState).1 ≠ .error .missingSession) ∧
     (∀ renv cols rows,
       (resize_pty renv "t1" cols rows sampleState).2.1 = sampleState ∧
       lookupSess (resize_pty renv "t1" cols rows sampleState).2.1.sessions "t1" =
          some sampleSession ∧
       (resize_pty renv "t1" cols rows sampleState).1 ≠ .error .missingSession)) :=
  ⟨by decide, rfl,
    registry_only_open_close_mutate sampleState "t1" sampleSession (by decide) rfl⟩
